import Mathlib

/-!
Shallow embedding of `src/tf/edgeml/graph/protoNN.py` (class `ProtoNN`).

Tensors of shape `[r, c]` are modelled as rectangular `List (List ℝ)`.
TensorFlow float32 arithmetic is modelled over the reals; `tf.exp` is
`Real.exp`, `tf.argmax(_, 1)` is the index of the first maximum of a row.
Python `assert` failures are modelled as `Except.error` carrying the
assertion message; the mutable instance state (`protoNNOut`,
`predictions`, `accuracy` caches and the `__validInit` flag) is modelled
by explicit state passing: `compute` returns the scores together with the
updated instance.
-/

noncomputable section

namespace ProtoNNModel

/-- Shape component 0 of a list-of-lists tensor: the number of rows. -/
def shape0 (A : List (List ℝ)) : Nat := A.length

/-- Shape component 1 of a list-of-lists tensor: the length of the first
row (the common row length for a rectangular tensor). -/
def shape1 (A : List (List ℝ)) : Nat := (A.headD []).length

/-- A list-of-lists is rectangular: every row has the common row length.
Every TensorFlow tensor of rank 2 satisfies this. -/
def IsRect (A : List (List ℝ)) : Prop := ∀ row ∈ A, row.length = shape1 A

/-- `A` models a tensor of shape `[r, c]`. -/
def IsMatrix (A : List (List ℝ)) (r c : Nat) : Prop :=
  A.length = r ∧ ∀ row ∈ A, row.length = c

instance (A : List (List ℝ)) (r c : Nat) : Decidable (IsMatrix A r c) := by
  unfold IsMatrix; infer_instance

instance (A : List (List ℝ)) : Decidable (IsRect A) := by
  unfold IsRect; infer_instance

/-- Dot product of two rows, `tf.matmul` inner loop. -/
def dot (u v : List ℝ) : ℝ := (List.zipWith (fun a b => a * b) u v).sum

/-- Column `k` of a list-of-lists tensor. -/
def getCol (A : List (List ℝ)) (k : Nat) : List ℝ :=
  A.map (fun row => row.getD k 0)

/-- `tf.matmul X W` for `X : [n, d]`, `W : [d, c]`, giving `[n, c]` with
`c = W.shape[1]`. -/
def matmul (X W : List (List ℝ)) : List (List ℝ) :=
  X.map (fun row => (List.range (shape1 W)).map (fun k => dot row (getCol W k)))

/-- The squared--distance tensor of `__call__`: `WX` is reshaped to
`[n, d_cap, 1]` and `B` to `[1, B.rows, m]`, then
`l2sim = reduce_sum (pow (B - WX) 2) axis=1`.  Dropping the kept
singleton axis, entry `[i][j]` is the squared Euclidean distance between
projected input `i` and prototype (column) `j` of `B`. -/
def l2simOf (WX B : List (List ℝ)) : List (List ℝ) :=
  WX.map (fun wxrow =>
    (List.range (shape1 B)).map (fun j =>
      ((List.range (shape0 B)).map
        (fun k => ((B.getD k []).getD j 0 - wxrow.getD k 0) ^ 2)).sum))

/-- `tf.argmax(row)`: the index of the first maximal entry of the row
(TensorFlow returns the smallest index on ties); `0` on an empty row. -/
def argmaxList (xs : List ℝ) : Nat :=
  (List.range xs.length).foldl
    (fun best i => if xs.getD best 0 < xs.getD i 0 then i else best) 0

/-- The accuracy computed by `__call__` when `Y` is supplied:
`reduce_mean (cast (equal predictions (argmax Y 1)) float32)`. -/
def accuracyOf (preds : List Nat) (Y : List (List ℝ)) : ℝ :=
  let target := Y.map argmaxList
  let correct := List.zipWith (fun a b => if a = b then (1 : ℝ) else 0) preds target
  correct.sum / (correct.length : ℝ)

/-- The state of a `ProtoNN` instance: hyperparameters, parameter
matrices, the `__validInit` flag, and the three memoized fields. -/
structure ProtoNN where
  d : Nat
  d_cap : Nat
  m : Nat
  L : Nat
  gamma : ℝ
  W : List (List ℝ)
  B : List (List ℝ)
  Z : List (List ℝ)
  validInit : Bool
  protoNNOut : Option (List (List ℝ))
  predictions : Option (List Nat)
  accuracy : Option ℝ

/-- The assertion message of `__validateInit`. -/
def errmsg : String :=
  "Dimensions mismatch! Should be W[d, d_cap], B[d_cap, m] and Z[L, m]"

/-- The assertion message of the `__validInit` check in `__call__`. -/
def initAssertMsg : String := "Initialization failed!"

/-- The assertion message of `getAccuracyOp`. -/
def accErrMsg : String :=
  "Accuracy operator not defined in graph. Did you provide Y as an argument to _call_?"

/-- The six shape checks of `__validateInit`, in source order:
`W.shape = [d, d_cap]`, `B.shape = [d_cap, m]`, `Z.shape = [L, m]`. -/
def validateCheck (d d_cap m L : Nat) (W B Z : List (List ℝ)) : Bool :=
  shape0 W == d && shape1 W == d_cap &&
  shape0 B == d_cap && shape1 B == m &&
  shape0 Z == L && shape1 Z == m

/-- `ProtoNN.__init__` with all three matrices supplied: bind the
matrices and gamma, run `__validateInit` (raising `errmsg` if any of the
six shape checks fails, with `__validInit` left `false`), and initialise
the three memo fields to `None`. -/
def protoNNInit (d d_cap m L : Nat) (gamma : ℝ) (W B Z : List (List ℝ)) :
    Except String ProtoNN :=
  if validateCheck d d_cap m L W B Z then
    .ok { d := d, d_cap := d_cap, m := m, L := L, gamma := gamma,
          W := W, B := B, Z := Z, validInit := true,
          protoNNOut := none, predictions := none, accuracy := none }
  else .error errmsg

/-- `getHyperParams`. -/
def getHyperParams (p : ProtoNN) : Nat × Nat × Nat × Nat × ℝ :=
  (p.d, p.d_cap, p.m, p.L, p.gamma)

/-- `getModelMatrices`. -/
def getModelMatrices (p : ProtoNN) :
    List (List ℝ) × List (List ℝ) × List (List ℝ) × ℝ :=
  (p.W, p.B, p.Z, p.gamma)

/-- The forward computation body of `__call__`: projection
`WX = matmul X W`, squared distances against the prototypes,
`M = exp ((-1 * gamma * gamma) * l2sim)`, then `Z`-weighted sum over the
prototype axis, giving the `[n, L]` score tensor. -/
def forward (p : ProtoNN) (X : List (List ℝ)) : List (List ℝ) :=
  let WX := matmul X p.W
  let l2sim := l2simOf WX p.B
  let M := l2sim.map (fun row =>
    row.map (fun v => Real.exp ((-1 * p.gamma * p.gamma) * v)))
  M.map (fun mrow =>
    p.Z.map (fun zrow => (List.zipWith (fun z mm => z * mm) zrow mrow).sum))

/-- `ProtoNN.__call__ (X, Y)`: assert `__validInit`; if an output is
already memoized return it unchanged; otherwise build the scores, cache
them together with `predictions = argmax (scores, 1)`, and, when `Y` is
supplied, cache the accuracy as well. -/
def compute (p : ProtoNN) (X : List (List ℝ)) (Y : Option (List (List ℝ))) :
    Except String (List (List ℝ) × ProtoNN) :=
  if p.validInit = true then
    match p.protoNNOut with
    | some y => .ok (y, p)
    | none =>
      let y := forward p X
      let preds := y.map argmaxList
      match Y with
      | none =>
          .ok (y, { p with protoNNOut := some y, predictions := some preds })
      | some Yval =>
          .ok (y, { p with protoNNOut := some y, predictions := some preds,
                           accuracy := some (accuracyOf preds Yval) })
  else .error initAssertMsg

/-- `getPredictionsOp`. -/
def getPredictionsOp (p : ProtoNN) : Option (List Nat) := p.predictions

/-- `getAccuracyOp`: assert the accuracy cache is set, else raise. -/
def getAccuracyOp (p : ProtoNN) : Except String ℝ :=
  match p.accuracy with
  | none => .error accErrMsg
  | some a => .ok a

end ProtoNNModel

namespace ProtoNNModel

/-! ### Concrete instance from the spec's numeric example:
`d=2, d_cap=2, m=1, L=2`, `W = I`, `B = [[0],[0]]`, `Z = [[1],[0]]`,
`gamma = 1`, input `X = [[0,0]]`. -/

/-- The instance `protoNNInit 2 2 1 2 1 I [[0],[0]] [[1],[0]]` constructs. -/
def pEx : ProtoNN :=
  { d := 2, d_cap := 2, m := 1, L := 2, gamma := 1,
    W := [[1, 0], [0, 1]], B := [[0], [0]], Z := [[1], [0]],
    validInit := true, protoNNOut := none, predictions := none, accuracy := none }

/-- `pEx` after a first `__call__` without `Y`. -/
def pEx1 : ProtoNN :=
  { pEx with protoNNOut := some [[1, 0]],
             predictions := some [0] }

/-- `pEx` after a first `__call__` with `Y = [[1,0]]`. -/
def pEx2 : ProtoNN :=
  { pEx with protoNNOut := some [[1, 0]],
             predictions := some [0],
             accuracy := some 1 }

lemma initEx_eq :
    protoNNInit 2 2 1 2 1 [[1, 0], [0, 1]] [[0], [0]] [[1], [0]] = .ok pEx := by
  simp [protoNNInit, validateCheck, shape0, shape1, pEx]

lemma computeEx_none_eq : compute pEx [[0, 0]] none = .ok ([[1, 0]], pEx1) := by
  simp [compute, forward, matmul, l2simOf, shape0, shape1, pEx, pEx1, getCol, dot,
    List.range_succ, Real.exp_zero, argmaxList]

lemma computeEx_some_eq :
    compute pEx [[0, 0]] (some [[1, 0]]) = .ok ([[1, 0]], pEx2) := by
  simp [compute, forward, matmul, l2simOf, shape0, shape1, pEx, pEx2, getCol, dot,
    List.range_succ, Real.exp_zero, argmaxList, accuracyOf]

lemma computeEx1_some_eq :
    compute pEx1 [[0, 0]] (some [[1, 0]]) = .ok ([[1, 0]], pEx1) := by
  simp [compute, pEx1, pEx]

/-- Claim C1: on the constructed model with `d=2, d_cap=2, m=1, L=2`,
`W = I`, `B = [[0],[0]]`, `Z = [[1],[0]]`, `gamma = 1`, the forward
computation on `X = [[0,0]]` follows projection, pairwise squared
distance, Gaussian kernel `exp (-(gamma^2) * l2sim)` and `Z`-weighted
sum: `l2sim = [[0]]`, kernel weight `1`, scores `[[1, 0]]`, predictions
`[0]`. -/
theorem claim_C1 :
    protoNNInit 2 2 1 2 1 [[1, 0], [0, 1]] [[0], [0]] [[1], [0]] = .ok pEx
    ∧ l2simOf (matmul [[0, 0]] pEx.W) pEx.B = [[0]]
    ∧ Real.exp ((-1 * pEx.gamma * pEx.gamma) * 0) = 1
    ∧ forward pEx [[0, 0]] = [[1, 0]]
    ∧ compute pEx [[0, 0]] none = .ok ([[1, 0]], pEx1)
    ∧ pEx1.predictions = some [argmaxList [1, 0]]
    ∧ argmaxList [1, 0] = 0 := by
  refine ⟨initEx_eq, ?_, by simp, ?_, computeEx_none_eq, ?_, ?_⟩
  · simp [l2simOf, matmul, shape0, shape1, pEx, getCol, dot, List.range_succ]
  · simp [forward, matmul, l2simOf, shape0, shape1, pEx, getCol, dot,
      List.range_succ, Real.exp_zero]
  · have h0 : argmaxList [(1 : ℝ), 0] = 0 := by
      simp [argmaxList, List.range_succ]
    simp [pEx1, pEx, h0]
  · simp [argmaxList, List.range_succ]
/-- Claim C2: once `__call__` has produced an output, calling it again on
the resulting instance — with the same input `X` or any different input —
returns the identical cached output and leaves the state unchanged; the
instance supports exactly one computation graph. -/
theorem claim_C2 (p p' : ProtoNN) (X X' : List (List ℝ))
    (Y Y' : Option (List (List ℝ))) (y : List (List ℝ))
    (h : compute p X Y = .ok (y, p')) :
    compute p' X' Y' = .ok (y, p') := by
  rcases hv : p.validInit with _ | _
  · simp [compute, hv] at h
  · rcases hout : p.protoNNOut with _ | y0
    · rcases Y with _ | Yval
      · simp [compute, hv, hout] at h
        obtain ⟨hy, hp⟩ := h
        subst hy; subst hp
        simp [compute, hv, hout]
      · simp [compute, hv, hout] at h
        obtain ⟨hy, hp⟩ := h
        subst hy; subst hp
        simp [compute, hv, hout]
    · simp [compute, hv, hout] at h
      obtain ⟨hy, hp⟩ := h
      subst hy; subst hp
      simp [compute, hv, hout]

/-- Witness for claim C2: on the example instance, the second call with a
different input still returns the first call's cached scores unchanged. -/
theorem claim_C2_witness : compute pEx1 [[5, 7]] none = .ok ([[1, 0]], pEx1) :=
  claim_C2 pEx pEx1 [[0, 0]] [[5, 7]] none none [[1, 0]] computeEx_none_eq

lemma protoNNInit_ok (d d_cap m L : Nat) (gamma : ℝ) (W B Z : List (List ℝ))
    (p : ProtoNN) (h : protoNNInit d d_cap m L gamma W B Z = .ok p) :
    validateCheck d d_cap m L W B Z = true ∧
    p = { d := d, d_cap := d_cap, m := m, L := L, gamma := gamma,
          W := W, B := B, Z := Z, validInit := true,
          protoNNOut := none, predictions := none, accuracy := none } := by
  by_cases hc : validateCheck d d_cap m L W B Z = true
  · rw [protoNNInit, if_pos hc] at h
    refine ⟨hc, ?_⟩
    injection h with h1
    exact h1.symm
  · rw [protoNNInit, if_neg hc] at h
    exact absurd h (by simp)

lemma forward_gamma_neg (p q : ProtoNN) (X : List (List ℝ))
    (hW : q.W = p.W) (hB : q.B = p.B) (hZ : q.Z = p.Z)
    (hg : q.gamma = -p.gamma) :
    forward q X = forward p X := by
  simp only [forward, hW, hB, hZ, hg, neg_mul, mul_neg, neg_neg, one_mul]

/-- Claim C3: for fixed `W, B, Z, X` and any real `g`, models constructed
with `gamma = g` and `gamma = -g` produce identical scores from
`__call__` — the kernel only uses `gamma * gamma`, so the sign of `gamma`
is unobservable. -/
theorem claim_C3 (d d_cap m L : Nat) (g : ℝ) (W B Z X : List (List ℝ))
    (Y : Option (List (List ℝ))) (p q : ProtoNN)
    (hp : protoNNInit d d_cap m L g W B Z = .ok p)
    (hq : protoNNInit d d_cap m L (-g) W B Z = .ok q) :
    (compute p X Y).map Prod.fst = (compute q X Y).map Prod.fst := by
  obtain ⟨-, hpe⟩ := protoNNInit_ok _ _ _ _ _ _ _ _ _ hp
  obtain ⟨-, hqe⟩ := protoNNInit_ok _ _ _ _ _ _ _ _ _ hq
  subst hpe; subst hqe
  have hf : forward
      { d := d, d_cap := d_cap, m := m, L := L, gamma := -g,
        W := W, B := B, Z := Z, validInit := true,
        protoNNOut := none, predictions := none, accuracy := none } X =
      forward
      { d := d, d_cap := d_cap, m := m, L := L, gamma := g,
        W := W, B := B, Z := Z, validInit := true,
        protoNNOut := none, predictions := none, accuracy := none } X :=
    forward_gamma_neg _ _ X rfl rfl rfl rfl
  rcases Y with _ | Yval
  · simp [compute, hf, Except.map]
  · simp [compute, hf, Except.map]

/-- The numeric-example instance with `gamma = -1` instead of `1`. -/
def qEx : ProtoNN := { pEx with gamma := -1 }

/-- Witness for claim C3: the example model with `gamma = 1` and its
`gamma = -1` twin yield the same scores on `X = [[0,0]]`. -/
theorem claim_C3_witness :
    (compute pEx [[0, 0]] none).map Prod.fst =
      (compute qEx [[0, 0]] none).map Prod.fst :=
  claim_C3 2 2 1 2 1 [[1, 0], [0, 1]] [[0], [0]] [[1], [0]] [[0, 0]] none
    pEx qEx initEx_eq
    (by simp [protoNNInit, validateCheck, shape0, shape1, qEx, pEx])

lemma shape_of_isMatrix (A : List (List ℝ)) (r c : Nat)
    (hA : IsMatrix A r c) (hr : 0 < r) : shape0 A = r ∧ shape1 A = c := by
  obtain ⟨hlen, hrow⟩ := hA
  refine ⟨hlen, ?_⟩
  cases A with
  | nil => simp at hlen; omega
  | cons a t => simpa [shape1] using hrow a (by simp)

lemma isMatrix_of_check (A : List (List ℝ)) (r c : Nat) (hrect : IsRect A)
    (h0 : shape0 A = r) (h1 : shape1 A = c) : IsMatrix A r c :=
  ⟨h0, fun row hrow => (hrect row hrow).trans h1⟩

lemma validateCheck_iff (d d_cap m L : Nat) (W B Z : List (List ℝ)) :
    validateCheck d d_cap m L W B Z = true ↔
      (shape0 W = d ∧ shape1 W = d_cap ∧ shape0 B = d_cap ∧ shape1 B = m ∧
        shape0 Z = L ∧ shape1 Z = m) := by
  simp [validateCheck, Bool.and_eq_true, beq_iff_eq, and_assoc]

/-- Claim C4: for rectangular supplied matrices in which any single
dimension mismatches the declared hyperparameters — `W` not
`[d, d_cap]`, or `B` not `[d_cap, m]`, or `Z` not `[L, m]` —
construction raises synchronously with the message naming the expected
shapes `W[d, d_cap]`, `B[d_cap, m]`, `Z[L, m]` (the string `errmsg`),
and construction does not complete. -/
theorem claim_C4 (d d_cap m L : Nat) (gamma : ℝ) (W B Z : List (List ℝ))
    (hW : IsRect W) (hB : IsRect B) (hZ : IsRect Z)
    (hmis : ¬(IsMatrix W d d_cap ∧ IsMatrix B d_cap m ∧ IsMatrix Z L m)) :
    protoNNInit d d_cap m L gamma W B Z = .error errmsg := by
  rw [protoNNInit, if_neg]
  intro hc
  rw [validateCheck_iff] at hc
  obtain ⟨h1, h2, h3, h4, h5, h6⟩ := hc
  exact hmis ⟨isMatrix_of_check W d d_cap hW h1 h2,
    isMatrix_of_check B d_cap m hB h3 h4, isMatrix_of_check Z L m hZ h5 h6⟩

/-- Witness for claim C4: a `W` of shape `[1, 2]` against declared
`d = 2` makes construction fail with the dimensions-mismatch message. -/
theorem claim_C4_witness :
    protoNNInit 2 2 1 2 1 [[1, 0]] [[0], [0]] [[1], [0]] = .error errmsg :=
  claim_C4 2 2 1 2 1 [[1, 0]] [[0], [0]] [[1], [0]]
    (by decide) (by decide) (by decide) (by decide)

/-- Claim C5: for positive hyperparameters and supplied matrices of
exactly the declared shapes, construction succeeds, `getHyperParams`
returns exactly `(d, d_cap, m, L, gamma)` and `getModelMatrices`
returns exactly the supplied `W, B, Z` and `gamma`; both accessors are
pure projections of the constructed state. -/
theorem claim_C5 (d d_cap m L : Nat) (gamma : ℝ) (W B Z : List (List ℝ))
    (hd : 0 < d) (hdc : 0 < d_cap) (hm : 0 < m) (hL : 0 < L)
    (hW : IsMatrix W d d_cap) (hB : IsMatrix B d_cap m) (hZ : IsMatrix Z L m) :
    ∃ p, protoNNInit d d_cap m L gamma W B Z = .ok p
      ∧ getHyperParams p = (d, d_cap, m, L, gamma)
      ∧ getModelMatrices p = (W, B, Z, gamma) := by
  obtain ⟨hW0, hW1⟩ := shape_of_isMatrix W d d_cap hW hd
  obtain ⟨hB0, hB1⟩ := shape_of_isMatrix B d_cap m hB hdc
  obtain ⟨hZ0, hZ1⟩ := shape_of_isMatrix Z L m hZ hL
  have hc : validateCheck d d_cap m L W B Z = true := by
    rw [validateCheck_iff]
    exact ⟨hW0, hW1, hB0, hB1, hZ0, hZ1⟩
  refine ⟨{ d := d, d_cap := d_cap, m := m, L := L, gamma := gamma,
            W := W, B := B, Z := Z, validInit := true,
            protoNNOut := none, predictions := none, accuracy := none },
    ?_, rfl, rfl⟩
  rw [protoNNInit, if_pos hc]

/-- Witness for claim C5: the numeric-example matrices construct and the
accessors return exactly the supplied values. -/
theorem claim_C5_witness :
    ∃ p, protoNNInit 2 2 1 2 1 [[1, 0], [0, 1]] [[0], [0]] [[1], [0]] = .ok p
      ∧ getHyperParams p = (2, 2, 1, 2, 1)
      ∧ getModelMatrices p = ([[1, 0], [0, 1]], [[0], [0]], [[1], [0]], 1) :=
  claim_C5 2 2 1 2 1 [[1, 0], [0, 1]] [[0], [0]] [[1], [0]]
    (by decide) (by decide) (by decide) (by decide)
    (by decide) (by decide) (by decide)

/-- Claim C9: the `__validInit` flag is `true` only if all six shape
checks passed (construction succeeded), `__call__` fails fast with the
initialization assertion when the flag is `false`, and on any instance
whose construction completed without raising the flag is `true` and the
precondition check of `__call__` never fires. -/
theorem claim_C9 (p : ProtoNN) (X : List (List ℝ)) (Y : Option (List (List ℝ))) :
    (p.validInit = false → compute p X Y = .error initAssertMsg)
    ∧ (∀ d d_cap m L gamma W B Z,
        protoNNInit d d_cap m L gamma W B Z = .ok p →
          validateCheck d d_cap m L W B Z = true ∧ p.validInit = true
          ∧ compute p X Y ≠ .error initAssertMsg) := by
  constructor
  · intro hv
    simp [compute, hv]
  · intro d dc m L g W B Z hinit
    obtain ⟨hc, hpe⟩ := protoNNInit_ok _ _ _ _ _ _ _ _ _ hinit
    subst hpe
    refine ⟨hc, rfl, ?_⟩
    rcases Y with _ | Yv
    · simp [compute]
    · simp [compute]

/-- The example instance with the `__validInit` flag forced to `false`. -/
def pBad : ProtoNN := { pEx with validInit := false }

/-- Witness for claim C9: an invalid instance makes `__call__` fail fast,
and the constructed example instance has the flag set with `__call__`
never hitting the precondition assertion. -/
theorem claim_C9_witness :
    (compute pBad [[0, 0]] none = .error initAssertMsg)
    ∧ (validateCheck 2 2 1 2 [[1, 0], [0, 1]] [[0], [0]] [[1], [0]] = true
        ∧ pEx.validInit = true
        ∧ compute pEx [[0, 0]] none ≠ .error initAssertMsg) :=
  ⟨(claim_C9 pBad [[0, 0]] none).1 rfl,
   (claim_C9 pEx [[0, 0]] none).2 2 2 1 2 1 [[1, 0], [0, 1]] [[0], [0]]
     [[1], [0]] initEx_eq⟩

/-- Claim C10: if the first `__call__` on a freshly constructed instance
supplied no `Y`, a later call that does supply `Y` returns the memoized
output with the state unchanged, the cached accuracy stays absent, and
`getAccuracyOp` still raises even though a `Y` was supplied to some
call. -/
theorem claim_C10 (d d_cap m L : Nat) (gamma : ℝ)
    (W B Z X X' Y' : List (List ℝ)) (p p' : ProtoNN) (y : List (List ℝ))
    (hinit : protoNNInit d d_cap m L gamma W B Z = .ok p)
    (hc : compute p X none = .ok (y, p')) :
    compute p' X' (some Y') = .ok (y, p')
    ∧ p'.accuracy = none
    ∧ getAccuracyOp p' = .error accErrMsg := by
  obtain ⟨-, hpe⟩ := protoNNInit_ok _ _ _ _ _ _ _ _ _ hinit
  subst hpe
  simp [compute] at hc
  obtain ⟨hy, hp⟩ := hc
  subst hy; subst hp
  refine ⟨?_, rfl, rfl⟩
  simp [compute]

/-- Witness for claim C10: on the example instance first called without
`Y`, a second call supplying `Y = [[0,1]]` returns the cached scores and
`getAccuracyOp` still raises. -/
theorem claim_C10_witness :
    compute pEx1 [[9, 9]] (some [[0, 1]]) = .ok ([[1, 0]], pEx1)
    ∧ pEx1.accuracy = none
    ∧ getAccuracyOp pEx1 = .error accErrMsg :=
  claim_C10 2 2 1 2 1 [[1, 0], [0, 1]] [[0], [0]] [[1], [0]] [[0, 0]]
    [[9, 9]] [[0, 1]] pEx pEx1 [[1, 0]] initEx_eq computeEx_none_eq

lemma zipInd_sum_bounds (preds : List Nat) :
    ∀ target : List Nat,
      0 ≤ (List.zipWith (fun a b => if a = b then (1 : ℝ) else 0) preds target).sum
      ∧ (List.zipWith (fun a b => if a = b then (1 : ℝ) else 0) preds target).sum
          ≤ ((List.zipWith (fun a b => if a = b then (1 : ℝ) else 0) preds target).length : ℝ) := by
  induction preds with
  | nil => intro target; simp
  | cons a t ih =>
    intro target
    cases target with
    | nil => simp
    | cons b tb =>
      obtain ⟨h1, h2⟩ := ih tb
      simp only [List.zipWith_cons_cons, List.sum_cons, List.length_cons]
      constructor
      · have hx : (0 : ℝ) ≤ if a = b then (1 : ℝ) else 0 := by split <;> norm_num
        linarith
      · have hx : (if a = b then (1 : ℝ) else 0) ≤ 1 := by split <;> norm_num
        push_cast
        linarith

lemma accuracyOf_bounds (preds : List Nat) (Y : List (List ℝ)) :
    0 ≤ accuracyOf preds Y ∧ accuracyOf preds Y ≤ 1 := by
  unfold accuracyOf
  obtain ⟨h1, h2⟩ := zipInd_sum_bounds preds (Y.map argmaxList)
  rcases Nat.eq_zero_or_pos
      (List.zipWith (fun a b => if a = b then (1 : ℝ) else 0) preds
        (Y.map argmaxList)).length with h0 | hpos
  · rw [List.length_eq_zero] at h0
    simp [h0]
  · have hn : (0 : ℝ) <
        ((List.zipWith (fun a b => if a = b then (1 : ℝ) else 0) preds
          (Y.map argmaxList)).length : ℝ) := by exact_mod_cast hpos
    constructor
    · exact div_nonneg h1 (le_of_lt hn)
    · rw [div_le_one hn]
      exact h2

lemma zipInd_sum_self (l : List Nat) :
    (List.zipWith (fun a b => if a = b then (1 : ℝ) else 0) l l).sum
      = (l.length : ℝ) := by
  induction l with
  | nil => simp
  | cons a t ih => simp [ih]; ring

lemma accuracyOf_all_match (preds : List Nat) (Y : List (List ℝ))
    (h : Y.map argmaxList = preds) (hpos : 0 < preds.length) :
    accuracyOf preds Y = 1 := by
  simp only [accuracyOf]
  rw [h, zipInd_sum_self, List.length_zipWith, min_self]
  have hn : ((preds.length : ℝ)) ≠ 0 := by
    exact_mod_cast Nat.pos_iff_ne_zero.mp hpos
  exact div_self hn

lemma zipInd_sum_zero (preds : List Nat) :
    ∀ target : List Nat,
      (∀ i, i < preds.length → i < target.length →
        preds.getD i 0 ≠ target.getD i 0) →
      (List.zipWith (fun a b => if a = b then (1 : ℝ) else 0) preds target).sum = 0 := by
  induction preds with
  | nil => intro target _; simp
  | cons a t ih =>
    intro target h
    cases target with
    | nil => simp
    | cons b tb =>
      have hab : a ≠ b := by simpa using h 0 (by simp) (by simp)
      have ht : (List.zipWith (fun a b => if a = b then (1 : ℝ) else 0) t tb).sum = 0 := by
        apply ih
        intro i hi1 hi2
        simpa using h (i + 1) (by simpa using hi1) (by simpa using hi2)
      simp [hab, ht]

lemma accuracyOf_all_mismatch (preds : List Nat) (Y : List (List ℝ))
    (h : ∀ i, i < preds.length → i < (Y.map argmaxList).length →
      preds.getD i 0 ≠ (Y.map argmaxList).getD i 0) :
    accuracyOf preds Y = 0 := by
  simp only [accuracyOf]
  rw [zipInd_sum_zero preds (Y.map argmaxList) h]
  simp

/-- Claim C6 (amended): `getAccuracyOp` raises iff no `Y` was supplied
to the graph-building (first) `__call__`: on a freshly constructed
instance it raises; after a first call that supplied `Y` it returns the
cached accuracy without raising; after a first call without `Y` it
raises.  (`Y` supplied to later, memoized calls is ignored, see the
counterexample.) -/
theorem claim_C6_amended (d d_cap m L : Nat) (gamma : ℝ)
    (W B Z X Y : List (List ℝ)) (p : ProtoNN)
    (hinit : protoNNInit d d_cap m L gamma W B Z = .ok p) :
    getAccuracyOp p = .error accErrMsg
    ∧ (∀ y p', compute p X (some Y) = .ok (y, p') →
        getAccuracyOp p' = .ok (accuracyOf (y.map argmaxList) Y))
    ∧ (∀ y p', compute p X none = .ok (y, p') →
        getAccuracyOp p' = .error accErrMsg) := by
  obtain ⟨-, hpe⟩ := protoNNInit_ok _ _ _ _ _ _ _ _ _ hinit
  subst hpe
  refine ⟨rfl, ?_, ?_⟩
  · intro y p' hc
    simp [compute] at hc
    obtain ⟨hy, hp⟩ := hc
    subst hy; subst hp
    rfl
  · intro y p' hc
    simp [compute] at hc
    obtain ⟨hy, hp⟩ := hc
    subst hy; subst hp
    rfl

/-- Counterexample to claim C6 as stated: on the example instance whose
first `__call__` had no `Y`, a second `__call__` does supply `Y`, yet
`getAccuracyOp` still raises — so raising is not equivalent to "no
`__call__` ever supplied `Y`". -/
theorem claim_C6_cex :
    protoNNInit 2 2 1 2 1 [[1, 0], [0, 1]] [[0], [0]] [[1], [0]] = .ok pEx
    ∧ compute pEx [[0, 0]] none = .ok ([[1, 0]], pEx1)
    ∧ compute pEx1 [[0, 0]] (some [[1, 0]]) = .ok ([[1, 0]], pEx1)
    ∧ getAccuracyOp pEx1 = .error accErrMsg :=
  ⟨initEx_eq, computeEx_none_eq, computeEx1_some_eq, rfl⟩

/-- Witness for claim C6 (amended) at the example instance: raises
before any call, returns the accuracy after a first `Y`-bearing call,
raises after a first call without `Y`. -/
theorem claim_C6_witness :
    getAccuracyOp pEx = .error accErrMsg
    ∧ getAccuracyOp pEx2 = .ok (accuracyOf (([[1, 0]] : List (List ℝ)).map argmaxList) [[1, 0]])
    ∧ getAccuracyOp pEx1 = .error accErrMsg :=
  ⟨(claim_C6_amended 2 2 1 2 1 [[1, 0], [0, 1]] [[0], [0]] [[1], [0]]
      [[0, 0]] [[1, 0]] pEx initEx_eq).1,
   (claim_C6_amended 2 2 1 2 1 [[1, 0], [0, 1]] [[0], [0]] [[1], [0]]
      [[0, 0]] [[1, 0]] pEx initEx_eq).2.1 [[1, 0]] pEx2 computeEx_some_eq,
   (claim_C6_amended 2 2 1 2 1 [[1, 0], [0, 1]] [[0], [0]] [[1], [0]]
      [[0, 0]] [[1, 0]] pEx initEx_eq).2.2 [[1, 0]] pEx1 computeEx_none_eq⟩

/-- Claim C7 (amended): when the graph-building (first) `__call__`
supplies `Y`, it computes and caches
`accuracy = mean (predictions == argmax Y)`, a scalar in `[0, 1]`;
if every row of `Y` matches `argmax scores` the accuracy equals `1.0`,
and if every row mismatches it equals `0.0`.  (A `Y` supplied to a
later, memoized call is ignored, see the counterexample.) -/
theorem claim_C7_amended (p p' : ProtoNN) (X Y y : List (List ℝ))
    (hfresh : p.protoNNOut = none)
    (hc : compute p X (some Y) = .ok (y, p')) :
    p'.accuracy = some (accuracyOf (y.map argmaxList) Y)
    ∧ 0 ≤ accuracyOf (y.map argmaxList) Y
    ∧ accuracyOf (y.map argmaxList) Y ≤ 1
    ∧ (0 < y.length → Y.map argmaxList = y.map argmaxList →
        accuracyOf (y.map argmaxList) Y = 1)
    ∧ ((∀ i, i < y.length → i < Y.length →
          (y.map argmaxList).getD i 0 ≠ (Y.map argmaxList).getD i 0) →
        accuracyOf (y.map argmaxList) Y = 0) := by
  rcases hv : p.validInit with _ | _
  · simp [compute, hv] at hc
  · simp [compute, hv, hfresh] at hc
    obtain ⟨hy, hp⟩ := hc
    subst hy; subst hp
    refine ⟨rfl, (accuracyOf_bounds _ _).1, (accuracyOf_bounds _ _).2, ?_, ?_⟩
    · intro hpos hmatch
      exact accuracyOf_all_match _ _ hmatch (by simpa using hpos)
    · intro hmm
      apply accuracyOf_all_mismatch
      intro i hi1 hi2
      exact hmm i (by simpa using hi1) (by simpa using hi2)

/-- Counterexample to claim C7 as stated: a `__call__` that supplies a
`Y` argument on an instance with a memoized output computes and caches
no accuracy — the cache stays `none` — so "whenever Compute is called
with a Y argument it computes and caches accuracy" fails. -/
theorem claim_C7_cex :
    protoNNInit 2 2 1 2 1 [[1, 0], [0, 1]] [[0], [0]] [[1], [0]] = .ok pEx
    ∧ compute pEx [[0, 0]] none = .ok ([[1, 0]], pEx1)
    ∧ compute pEx1 [[0, 0]] (some [[1, 0]]) = .ok ([[1, 0]], pEx1)
    ∧ pEx1.accuracy = none :=
  ⟨initEx_eq, computeEx_none_eq, computeEx1_some_eq, rfl⟩

/-- Witness for claim C7 (amended): the example instance called first
with `Y = [[1,0]]` caches the accuracy, which is within bounds, equals
`1` when all rows match, and would be `0` were every row mismatched. -/
theorem claim_C7_witness :
    pEx2.accuracy = some (accuracyOf (([[1, 0]] : List (List ℝ)).map argmaxList) [[1, 0]])
    ∧ 0 ≤ accuracyOf (([[1, 0]] : List (List ℝ)).map argmaxList) [[1, 0]]
    ∧ accuracyOf (([[1, 0]] : List (List ℝ)).map argmaxList) [[1, 0]] ≤ 1
    ∧ (0 < ([[1, 0]] : List (List ℝ)).length →
        ([[1, 0]] : List (List ℝ)).map argmaxList =
          ([[1, 0]] : List (List ℝ)).map argmaxList →
        accuracyOf (([[1, 0]] : List (List ℝ)).map argmaxList) [[1, 0]] = 1)
    ∧ ((∀ i, i < ([[1, 0]] : List (List ℝ)).length →
          i < ([[1, 0]] : List (List ℝ)).length →
          (([[1, 0]] : List (List ℝ)).map argmaxList).getD i 0 ≠
            (([[1, 0]] : List (List ℝ)).map argmaxList).getD i 0) →
        accuracyOf (([[1, 0]] : List (List ℝ)).map argmaxList) [[1, 0]] = 0) :=
  claim_C7_amended pEx pEx2 [[0, 0]] [[1, 0]] [[1, 0]] rfl computeEx_some_eq

lemma forward_length (p : ProtoNN) (X : List (List ℝ)) :
    (forward p X).length = X.length := by
  simp [forward, matmul, l2simOf]

lemma forward_row_length (p : ProtoNN) (X : List (List ℝ)) :
    ∀ row ∈ forward p X, row.length = p.Z.length := by
  intro row hrow
  simp only [forward, List.mem_map] at hrow
  obtain ⟨mrow, hm, hr⟩ := hrow
  rw [← hr]
  simp

lemma argmaxList_lt (xs : List ℝ) (h : 0 < xs.length) :
    argmaxList xs < xs.length := by
  have key : ∀ (l : List Nat) (b : Nat), b < xs.length →
      (∀ i ∈ l, i < xs.length) →
      List.foldl (fun best i => if xs.getD best 0 < xs.getD i 0 then i else best)
        b l < xs.length := by
    intro l
    induction l with
    | nil =>
      intro b hb _
      simpa using hb
    | cons a t ih =>
      intro b hb hl
      simp only [List.foldl_cons]
      apply ih
      · split
        · exact hl a (by simp)
        · exact hb
      · intro i hi
        exact hl i (by simp [hi])
  exact key (List.range xs.length) 0 h (fun i hi => List.mem_range.mp hi)

/-- Claim C8: for any input `X` of shape `[n, d]` with `n ≥ 1`, the
scores returned by `__call__` have shape `[n, L]`, and the cached
`predictions = argmax (scores, 1)` have shape `[n]` with every value in
`[0, L-1]`. -/
theorem claim_C8 (d d_cap m L n : Nat) (gamma : ℝ) (W B Z X : List (List ℝ))
    (Y : Option (List (List ℝ))) (p p' : ProtoNN) (y : List (List ℝ))
    (hL : 0 < L) (hn : 1 ≤ n) (hX : X.length = n)
    (hXrow : ∀ row ∈ X, row.length = d)
    (hinit : protoNNInit d d_cap m L gamma W B Z = .ok p)
    (hc : compute p X Y = .ok (y, p')) :
    y.length = n
    ∧ (∀ row ∈ y, row.length = L)
    ∧ p'.predictions = some (y.map argmaxList)
    ∧ (y.map argmaxList).length = n
    ∧ ∀ i ∈ y.map argmaxList, i < L := by
  obtain ⟨hvc, hpe⟩ := protoNNInit_ok _ _ _ _ _ _ _ _ _ hinit
  subst hpe
  rw [validateCheck_iff] at hvc
  have hZlen : Z.length = L := hvc.2.2.2.2.1
  have main : ∀ yv : List (List ℝ), yv = forward
      { d := d, d_cap := d_cap, m := m, L := L, gamma := gamma,
        W := W, B := B, Z := Z, validInit := true,
        protoNNOut := none, predictions := none, accuracy := none } X →
      yv.length = n ∧ (∀ row ∈ yv, row.length = L)
      ∧ (yv.map argmaxList).length = n ∧ ∀ i ∈ yv.map argmaxList, i < L := by
    intro yv hyv
    have h1 : yv.length = n := by rw [hyv, forward_length, hX]
    have h2 : ∀ row ∈ yv, row.length = L := by
      intro row hrow
      have := forward_row_length _ X row (hyv ▸ hrow)
      simpa [hZlen] using this
    refine ⟨h1, h2, by simpa using h1, ?_⟩
    intro i hi
    rw [List.mem_map] at hi
    obtain ⟨row, hrow, hi2⟩ := hi
    rw [← hi2]
    have hrl : row.length = L := h2 row hrow
    have := argmaxList_lt row (by rw [hrl]; exact hL)
    rwa [hrl] at this
  rcases Y with _ | Yv
  · simp [compute] at hc
    obtain ⟨hy, hp⟩ := hc
    subst hy; subst hp
    obtain ⟨h1, h2, h3, h4⟩ := main _ rfl
    exact ⟨h1, h2, rfl, h3, h4⟩
  · simp [compute] at hc
    obtain ⟨hy, hp⟩ := hc
    subst hy; subst hp
    obtain ⟨h1, h2, h3, h4⟩ := main _ rfl
    exact ⟨h1, h2, rfl, h3, h4⟩

/-- Witness for claim C8 at the numeric example (`n = 1`, `L = 2`):
scores `[[1, 0]]` have shape `[1, 2]` and the predictions have shape
`[1]` with the single value below `2`. -/
theorem claim_C8_witness :
    ([[( 1 : ℝ), 0]] : List (List ℝ)).length = 1
    ∧ (∀ row ∈ ([[(1 : ℝ), 0]] : List (List ℝ)), row.length = 2)
    ∧ pEx1.predictions = some (([[(1 : ℝ), 0]] : List (List ℝ)).map argmaxList)
    ∧ (([[(1 : ℝ), 0]] : List (List ℝ)).map argmaxList).length = 1
    ∧ ∀ i ∈ ([[(1 : ℝ), 0]] : List (List ℝ)).map argmaxList, i < 2 :=
  claim_C8 2 2 1 2 1 1 [[1, 0], [0, 1]] [[0], [0]] [[1], [0]] [[0, 0]] none
    pEx pEx1 [[1, 0]] (by decide) (by decide) (by decide)
    (by decide) initEx_eq computeEx_none_eq
